import Mathlib

/-!
# Verification of the Hephix chat front-end session controller

Shallow embedding of the non-presentational logic of the repository's two
React component variants:

* `Hephix` — the session-aware chat component (`src/unnamed/part_000`, first
  component): state hooks, `loadSessions`, `loadSession`, `getChatEndpoint`,
  `handleNewChat`, `handleSend`.
* `HephixSimple` — the simple variant (`src/src/App.tsx`, identical in logic
  to the second component of `src/unnamed/part_000`): `handleSend` with
  text-or-results replies and no session machinery.

Network responses are modelled as inputs: a `fetch` call either rejects, or
yields a status together with a body that either parses to a JSON value or
fails to parse.  JavaScript runtime behaviour relevant to the source is
modelled explicitly: truthiness, `String(...)` coercion, property access
(which throws a `TypeError` on `null`), `trim`, `startsWith`, and
`Array.prototype.join`'s treatment of `null`/`undefined` elements.
-/

namespace Hephix

/-- A parsed JSON value, as produced by `res.json()`.  Object field names are
assumed distinct (as after `JSON.parse`, where duplicate keys collapse). -/
inductive Json where
  | null
  | bool (b : Bool)
  | num (n : Int)
  | str (s : String)
  | arr (elems : List Json)
  | obj (fields : List (String × Json))

mutual

/-- Structural equality test on JSON values.  The source only ever compares
against string literals, where JavaScript strict equality agrees with
structural equality. -/
def Json.beq : Json → Json → Bool
  | .null, .null => true
  | .bool a, .bool b => a == b
  | .num a, .num b => a == b
  | .str a, .str b => a == b
  | .arr xs, .arr ys => Json.beqList xs ys
  | .obj fs, .obj gs => Json.beqFields fs gs
  | _, _ => false

/-- Elementwise `Json.beq` on arrays. -/
def Json.beqList : List Json → List Json → Bool
  | [], [] => true
  | x :: xs, y :: ys => Json.beq x y && Json.beqList xs ys
  | _, _ => false

/-- Fieldwise `Json.beq` on object field lists. -/
def Json.beqFields : List (String × Json) → List (String × Json) → Bool
  | [], [] => true
  | (k, v) :: fs, (l, w) :: gs => k == l && Json.beq v w && Json.beqFields fs gs
  | _, _ => false

end

mutual

/-- `Json.beq` decides equality. -/
theorem Json.beq_iff : ∀ a b : Json, Json.beq a b = true ↔ a = b
  | .null, .null => by simp [Json.beq]
  | .bool _, .bool _ => by simp [Json.beq]
  | .num _, .num _ => by simp [Json.beq]
  | .str _, .str _ => by simp [Json.beq]
  | .arr xs, .arr ys => by
      simp only [Json.beq, Json.beqList_iff xs ys, Json.arr.injEq]
  | .obj fs, .obj gs => by
      simp only [Json.beq, Json.beqFields_iff fs gs, Json.obj.injEq]
  | .null, .bool _ | .null, .num _ | .null, .str _ | .null, .arr _ | .null, .obj _
  | .bool _, .null | .bool _, .num _ | .bool _, .str _ | .bool _, .arr _ | .bool _, .obj _
  | .num _, .null | .num _, .bool _ | .num _, .str _ | .num _, .arr _ | .num _, .obj _
  | .str _, .null | .str _, .bool _ | .str _, .num _ | .str _, .arr _ | .str _, .obj _
  | .arr _, .null | .arr _, .bool _ | .arr _, .num _ | .arr _, .str _ | .arr _, .obj _
  | .obj _, .null | .obj _, .bool _ | .obj _, .num _ | .obj _, .str _ | .obj _, .arr _ => by
      simp [Json.beq]

/-- `Json.beqList` decides equality of arrays. -/
theorem Json.beqList_iff : ∀ xs ys : List Json, Json.beqList xs ys = true ↔ xs = ys
  | [], [] => by simp [Json.beqList]
  | x :: xs, y :: ys => by
      simp [Json.beqList, Json.beq_iff x y, Json.beqList_iff xs ys]
  | [], _ :: _ => by simp [Json.beqList]
  | _ :: _, [] => by simp [Json.beqList]

/-- `Json.beqFields` decides equality of field lists. -/
theorem Json.beqFields_iff : ∀ fs gs : List (String × Json), Json.beqFields fs gs = true ↔ fs = gs
  | [], [] => by simp [Json.beqFields]
  | (k, v) :: fs, (l, w) :: gs => by
      simp [Json.beqFields, Json.beq_iff v w, Json.beqFields_iff fs gs]
  | [], _ :: _ => by simp [Json.beqFields]
  | _ :: _, [] => by simp [Json.beqFields]

end

instance : DecidableEq Json := fun a b => decidable_of_iff _ (Json.beq_iff a b)

/-- JavaScript property access `data.k` on a parsed JSON value, for the case
where the receiver is known not to be `null` (access on `null` throws a
`TypeError`; call sites model that case separately).  On a non-object the
result is `undefined`, modelled as `none`. -/
def Json.getF : Json → String → Option Json
  | .obj fs, k => (fs.find? fun p => p.1 == k).map fun p => p.2
  | _, _ => none

/-- JavaScript truthiness of a parsed JSON value: `null`, `false`, `0` and
the empty string are falsy; arrays and objects are always truthy. -/
def jsTruthy : Json → Bool
  | .null => false
  | .bool b => b
  | .num n => n != 0
  | .str s => s != ""
  | .arr _ => true
  | .obj _ => true

/-- Truthiness of a possibly-`undefined` value (`none` models `undefined`). -/
def jsTruthyOpt : Option Json → Bool
  | none => false
  | some j => jsTruthy j

mutual

/-- The JavaScript `String(...)` coercion of a parsed JSON value:
`null` prints as `"null"`, booleans and integers print in decimal form,
arrays print as their comma-joined elements (with `null` elements printing
as the empty string), and plain objects print as `"[object Object]"`. -/
def jsToString : Json → String
  | .null => "null"
  | .bool b => if b then "true" else "false"
  | .num n => toString n
  | .str s => s
  | .arr xs => jsArrString xs true
  | .obj _ => "[object Object]"

/-- Comma-joined stringification of array elements, per
`Array.prototype.toString`; `first` tracks whether a separator is due. -/
def jsArrString : List Json → Bool → String
  | [], _ => ""
  | j :: tl, first =>
      (if first then "" else ",") ++
      (match j with
       | .null => ""
       | j => jsToString j) ++ jsArrString tl false

end

/-- `String(...)` coercion of a possibly-`undefined` value, as performed by
`localStorage.setItem` on a non-string argument. -/
def jsValToString : Option Json → String
  | none => "undefined"
  | some j => jsToString j

/-- JavaScript strict equality of a value against a string literal, as in
`item.type === 'text'`. -/
def Json.eqStr : Json → String → Bool
  | .str s, t => s == t
  | _, _ => false

/-- The characters removed by `String.prototype.trim` (the source's drafts
and reply texts; the usual whitespace characters). -/
def isJsWhitespace (c : Char) : Bool :=
  c == ' ' || c == '\t' || c == '\n' || c == '\r'

/-- JavaScript `String.prototype.trim`: drop leading and trailing
whitespace. -/
def jsTrim (s : String) : String :=
  String.mk (((s.data.dropWhile isJsWhitespace).reverse.dropWhile isJsWhitespace).reverse)

/-- JavaScript `String.prototype.startsWith` with a literal search string. -/
def jsStartsWith (s p : String) : Bool :=
  p.data.isPrefixOf s.data

/-- `Array.prototype.join('\n')` applied to the extracted `item.text`
values: `undefined` (`none`) and `null` elements join as the empty string,
any other element is coerced with `String(...)`. -/
def jsJoinNL (xs : List (Option Json)) : String :=
  String.intercalate "\n" (xs.map fun x =>
    match x with
    | none => ""
    | some .null => ""
    | some j => jsToString j)

/-! ## Session-aware component state (`src/unnamed/part_000`, first component)

`type Store = 'depo' | 'darel' | 'ebay'`, `type ChatMessage = {id, role, text}`
and the `useState` hooks of `App`, together with the two `localStorage` keys
the verified operations read and write (`hephix_sid`, `hephix_store`).
The purely presentational hooks (`theme`, `sidebarOpen`) and the scroll/focus
refs are not referenced by any verified operation and are omitted. -/

/-- The selectable backend store. -/
inductive Store where
  | depo
  | darel
  | ebay
deriving DecidableEq

/-- The string value a `Store` takes in `localStorage.setItem('hephix_store', …)`
and in URL suffixes. -/
def storeName : Store → String
  | .depo => "depo"
  | .darel => "darel"
  | .ebay => "ebay"

/-- Message role, `'user' | 'ai'` in the source. -/
inductive Role where
  | user
  | ai
deriving DecidableEq

/-- `type ChatMessage = { id: number, role: 'user' | 'ai', text: string }`. -/
structure ChatMessage where
  id : Nat
  role : Role
  text : String
deriving DecidableEq

/-- The component state of the session-aware `App`, plus the persisted
`localStorage` values it manipulates.  `sessionId` is the runtime value of
the `sessionId` state hook: although declared `string`, `loadSession` can
store an arbitrary response value (or `undefined`, modelled `none`) in it,
so it is modelled as a raw JavaScript value. -/
structure AppState where
  draft : String
  isSending : Bool
  error : String
  messages : List ChatMessage
  sessionId : Option Json
  store : Store
  sessions : Json
  sidStore : Option String
  storeStore : Option String
deriving DecidableEq

/-- Outcome of a `fetch` call, supplied as an input to an operation:
either the promise rejected (`fail`, carrying the rejection's message), or a
response arrived with an HTTP status and a body that `res.json()` either
parses (`Except.ok`) or fails to parse (`Except.error`, carrying the parse
error's message). -/
inductive FetchResult where
  | fail (errMsg : String)
  | resp (status : Nat) (body : Except String Json)

instance : DecidableEq (Except String Json) := fun a b =>
  match a, b with
  | .ok x, .ok y => decidable_of_iff (x = y) (by simp)
  | .error x, .error y => decidable_of_iff (x = y) (by simp)
  | .ok _, .error _ => isFalse (by simp)
  | .error _, .ok _ => isFalse (by simp)

instance : DecidableEq FetchResult := fun a b =>
  match a, b with
  | .fail x, .fail y => decidable_of_iff (x = y) (by simp)
  | .resp s x, .resp t y => decidable_of_iff (s = t ∧ x = y) (by simp)
  | .fail _, .resp _ _ => isFalse (by simp)
  | .resp _ _, .fail _ => isFalse (by simp)

/-- `response.ok`: the status is in the 2xx range. -/
def isOkStatus (status : Nat) : Bool :=
  200 ≤ status && status ≤ 299

/-- A thrown JavaScript exception reaching a `catch` block of the source.
Each constructor is an `Error` instance, so `err instanceof Error` holds and
`err.message` is given by `errMessage`. -/
inductive ThrownErr where
  | httpStatus (status : Nat)
  | jsonError (msg : String)
  | fetchError (msg : String)
  | emptyResponse
  | nullAccess (field : String)
deriving DecidableEq

/-- `err.message` for each thrown exception.  The `httpStatus` and
`emptyResponse` messages are the literal templates of the source; the
`nullAccess` text is the V8 wording of the `TypeError`.  All constructors
are `Error` instances, so the source's `'Unable to reach server'` fallback
for non-`Error` throws is unreachable. -/
def errMessage : ThrownErr → String
  | .httpStatus status => "Request failed with status " ++ toString status
  | .jsonError msg => msg
  | .fetchError msg => msg
  | .emptyResponse => "Empty response from server"
  | .nullAccess field => "Cannot read properties of null (reading " ++ field ++ ")"

/-! ## `loadSessions` (lines 63–71) -/

/-- `loadSessions`: fetch the session list and run
`setSessions(data.sessions || [])`; the whole body is wrapped in
`try { … } catch { /* silently fail */ }`.  The HTTP status is never
consulted.  A `null` body throws a `TypeError` at `data.sessions` before
`setSessions` runs. -/
def loadSessions (st : AppState) (r : FetchResult) : AppState :=
  match r with
  | .fail _ => st
  | .resp _ (.error _) => st
  | .resp _ (.ok .null) => st
  | .resp _ (.ok data) =>
      let v := data.getF "sessions"
      let sess := match v with
        | some j => if jsTruthy j then j else Json.arr []
        | none => Json.arr []
      { st with sessions := sess }

/-! ## `loadSession` (lines 73–123) -/

/-- `const detectedStore = data.session_id.startsWith('darel-') ? 'darel'
: data.session_id.startsWith('ebay-') ? 'ebay' : 'depo'` (lines 81–85). -/
def detectStore (sid : String) : Store :=
  if jsStartsWith sid "darel-" then .darel
  else if jsStartsWith sid "ebay-" then .ebay
  else .depo

/-- The `for (const m of …)` header: arrays iterate their elements, strings
iterate their characters, any other (truthy) value throws a `TypeError`. -/
def jsIterate : Json → Except Unit (List Json)
  | .arr xs => .ok xs
  | .str s => .ok (s.data.map fun c => Json.str (String.mk [c]))
  | _ => .error ()

/-- The `filter`/`map` pass over an AI message's content array (lines
100–102): keep the `item.text` of every part with `item.type === 'text'`.
Accessing `item.type` on a `null` part throws. -/
def partTexts : List Json → Except Unit (List (Option Json))
  | [] => .ok []
  | .null :: _ => .error ()
  | it :: rest =>
      (partTexts rest).map fun ts =>
        if (it.getF "type").any fun j => j.eqStr "text" then it.getF "text" :: ts
        else ts

/-- Content extraction for one history entry (lines 95–109): empty unless
`m.data` is truthy and `m.data.content` is defined; then an array keeps only
its text parts joined with newlines, a string is kept as is, and anything
else is coerced with `String(...)`. -/
def extractContent (m : Json) : Except Unit String :=
  match m.getF "data" with
  | none => .ok ""
  | some d =>
      if jsTruthy d then
        match d.getF "content" with
        | none => .ok ""
        | some (.arr items) => (partTexts items).map jsJoinNL
        | some (.str s) => .ok s
        | some c => .ok (jsToString c)
      else .ok ""

/-- `const type = m.type || 'unknown'` (line 91); `m` is known not to be
`null` at this point. -/
def typeTag (m : Json) : Json :=
  match m.getF "type" with
  | some v => if jsTruthy v then v else .str "unknown"
  | none => .str "unknown"

/-- The history-rebuilding loop (lines 89–116): `system` entries are skipped
before content extraction, `human` and `ai` entries are appended with
`id = loaded.length`, anything else is dropped after extraction.  A `null`
entry throws at `m.type`. -/
def buildLoaded : List Json → List ChatMessage → Except Unit (List ChatMessage)
  | [], loaded => .ok loaded
  | .null :: _, _ => .error ()
  | m :: rest, loaded =>
      let t := typeTag m
      if t.eqStr "system" then buildLoaded rest loaded
      else
        match extractContent m with
        | .error e => .error e
        | .ok content =>
            if t.eqStr "human" then
              buildLoaded rest (loaded ++ [⟨loaded.length, .user, content⟩])
            else if t.eqStr "ai" then
              buildLoaded rest (loaded ++ [⟨loaded.length, .ai, content⟩])
            else buildLoaded rest loaded

/-- `loadSession` (lines 73–123).  The `try` block runs
`setSessionId(data.session_id)` and persists it *before* the
`data.session_id.startsWith(…)` store detection; if `session_id` is not a
string the `startsWith` access throws and the silent `catch` keeps the
mutations already applied.  Likewise a throw inside the message loop keeps
the session id and store mutations but never reaches `setMessages`.
The trailing `loadSessions()` refresh is a separate fire-and-forget call,
modelled by composing with `loadSessions`. -/
def loadSession (st : AppState) (r : FetchResult) : AppState :=
  match r with
  | .fail _ => st
  | .resp _ (.error _) => st
  | .resp _ (.ok .null) => st
  | .resp _ (.ok data) =>
      let sidVal := data.getF "session_id"
      let st1 := { st with sessionId := sidVal, sidStore := some (jsValToString sidVal) }
      match sidVal with
      | some (.str sid) =>
          let ds := detectStore sid
          let st2 := { st1 with store := ds, storeStore := some (storeName ds) }
          let msgsVal := match data.getF "messages" with
            | some j => if jsTruthy j then j else Json.arr []
            | none => Json.arr []
          match jsIterate msgsVal with
          | .error _ => st2
          | .ok items =>
              match buildLoaded items [] with
              | .error _ => st2
              | .ok loaded => { st2 with messages := loaded, error := "" }
      | _ => st1

/-! ## `getChatEndpoint` (lines 125–129), `handleNewChat` (lines 131–138) -/

/-- `getChatEndpoint`: route the chat request by the active store. -/
def getChatEndpoint (apiBaseUrl : String) (store : Store) : String :=
  match store with
  | .darel => apiBaseUrl ++ "/chat/darel"
  | .ebay => apiBaseUrl ++ "/chat/ebay"
  | .depo => apiBaseUrl ++ "/chat"

/-- `handleNewChat`: clear session id, messages and error, and remove the
persisted session id.  The trailing `loadSessions()` refresh is a separate
fire-and-forget call and the input focus is presentational. -/
def handleNewChat (st : AppState) : AppState :=
  { st with sessionId := some (.str ""), messages := [], error := "", sidStore := none }

/-! ## `handleSend` (lines 151–212) -/

/-- `typeof data.response === 'string' ? data.response.trim() : ''`
(lines 187–188). -/
def responseTextOf (data : Json) : String :=
  match data.getF "response" with
  | some (.str s) => jsTrim s
  | _ => ""

/-- The request body `{message: trimmed, session_id: sessionId || undefined}`
that `handleSend` would serialize for a given state (lines 169–172);
`JSON.stringify` drops the `session_id` field when it is `undefined`. -/
def requestBody (st : AppState) : String × Option Json :=
  (jsTrim st.draft, if jsTruthyOpt st.sessionId then st.sessionId else none)

/-- The `try` block of `handleSend` after the user message is appended
(lines 165–203): returns the state reached together with the exception that
aborted it, if any.  On a 2xx parsed body, a truthy `session_id` is adopted
and persisted *before* the empty-reply check, so that adoption survives an
`'Empty response from server'` failure.  The trailing `loadSessions()` is a
separate fire-and-forget call. -/
def sendAttempt (now : Nat) (st1 : AppState) (r : FetchResult) :
    AppState × Option ThrownErr :=
  match r with
  | .fail m => (st1, some (.fetchError m))
  | .resp status body =>
      if isOkStatus status then
        match body with
        | .error m => (st1, some (.jsonError m))
        | .ok .null => (st1, some (.nullAccess "session_id"))
        | .ok data =>
            let sidVal := data.getF "session_id"
            let st2 :=
              if jsTruthyOpt sidVal then
                { st1 with sessionId := sidVal, sidStore := some (jsValToString sidVal) }
              else st1
            let responseText := responseTextOf data
            if responseText = "" then (st2, some .emptyResponse)
            else
              ({ st2 with messages := st2.messages ++ [⟨now + 1, .ai, responseText⟩] }, none)
      else (st1, some (.httpStatus status))

/-- `handleSend` (lines 151–212): reject when the trimmed draft is empty or
a send is in flight; otherwise clear the error, raise the sending flag,
append the user message (`id = Date.now()`, modelled by `now`), clear the
draft, run the attempt, set the error from the caught exception's message if
one was thrown, and finally lower the sending flag. -/
def handleSend (now : Nat) (st : AppState) (r : FetchResult) : AppState :=
  let trimmed := jsTrim st.draft
  if trimmed = "" ∨ st.isSending then st
  else
    let st1 := { st with error := "", isSending := true, draft := "",
                         messages := st.messages ++ [⟨now, .user, trimmed⟩] }
    let res := sendAttempt now st1 r
    let st3 := match res.2 with
      | some e => { res.1 with error := errMessage e }
      | none => res.1
    { st3 with isSending := false }

/-! ## Structured history entries

The consumed contract of `GET {base}/sessions/<id>` delivers history entries
`{type, data?: {content: string | ContentPart[] | other}}` with
`ContentPart = {type, text?}`.  The records below describe that contract
shape; `toJson` embeds them into the raw value model so that the
history-rebuilding loop can be run on them. -/

/-- A tagged content part `{type: string, text?: string}`. -/
structure ContentPart where
  type : String
  text : Option String
deriving DecidableEq

/-- The three shapes a `data.content` payload can take: a plain string, an
array of tagged parts, or any other value (`other`), which the source
coerces with `String(...)`.  For `other` to be faithful to the contract it
must not itself be a string or an array; theorems assume `EntryData.wf`. -/
inductive ContentVal where
  | str (s : String)
  | parts (ps : List ContentPart)
  | other (j : Json)
deriving DecidableEq

/-- The `data` field of a history entry: absent, present without a
`content` field, or present with a content payload. -/
inductive EntryData where
  | absent
  | emptyObj
  | content (c : ContentVal)
deriving DecidableEq

/-- A history entry `{type, data?}` of the session-history contract. -/
structure HistoryEntry where
  type : String
  data : EntryData
deriving DecidableEq

/-- Well-formedness of an entry's data: an `other` content payload is
neither a string nor an array (those shapes are represented by the
dedicated constructors). -/
def EntryData.wf : EntryData → Bool
  | .content (.other (.str _)) => false
  | .content (.other (.arr _)) => false
  | _ => true

/-- JSON form of a content part; the `text` field is present iff `text` is. -/
def ContentPart.toJson (p : ContentPart) : Json :=
  .obj (("type", Json.str p.type) ::
    (match p.text with
     | some t => [("text", Json.str t)]
     | none => []))

/-- JSON form of a content payload. -/
def ContentVal.toJson : ContentVal → Json
  | .str s => .str s
  | .parts ps => .arr (ps.map ContentPart.toJson)
  | .other j => j

/-- The object fields contributed by an entry's `data`. -/
def EntryData.fields : EntryData → List (String × Json)
  | .absent => []
  | .emptyObj => [("data", .obj [])]
  | .content c => [("data", .obj [("content", c.toJson)])]

/-- JSON form of a history entry. -/
def HistoryEntry.toJson (e : HistoryEntry) : Json :=
  .obj (("type", Json.str e.type) :: e.data.fields)

/-! ## Specification-side history rebuild

The following definitions transcribe the specification's wording for the
`loadSession` rebuild, to be compared with the embedded loop: entries tagged
`system` are dropped, `human` entries become user messages, `ai` entries
become assistant messages; a string payload is kept as is, an array payload
keeps only the parts tagged `text` joined with newline separators, and any
other payload is coerced to its textual form. -/

/-- Spec side: the text a content part contributes (absent text joins as
the empty string). -/
def specPartText (p : ContentPart) : String :=
  p.text.getD ""

/-- Spec side: message text extraction over the three payload shapes. -/
def specExtract : EntryData → String
  | .content (.str s) => s
  | .content (.parts ps) =>
      String.intercalate "\n" ((ps.filter fun p => p.type == "text").map specPartText)
  | .content (.other j) => jsToString j
  | .absent => ""
  | .emptyObj => ""

/-- Spec side: role and text of the message an entry produces, `none` when
the entry is dropped. -/
def specEntry (e : HistoryEntry) : Option (Role × String) :=
  if e.type == "system" then none
  else if e.type == "human" then some (.user, specExtract e.data)
  else if e.type == "ai" then some (.ai, specExtract e.data)
  else none

/-- Spec side: assign identifiers by position, starting from `startId`. -/
def specNumber (startId : Nat) : List (Role × String) → List ChatMessage
  | [] => []
  | (r, t) :: rest => ⟨startId, r, t⟩ :: specNumber (startId + 1) rest

/-- Spec side: the rebuilt message list, with identifiers assigned by
position. -/
def specRebuild (es : List HistoryEntry) : List ChatMessage :=
  specNumber 0 (es.filterMap specEntry)

end Hephix

namespace HephixSimple

open Hephix (Json FetchResult ThrownErr errMessage jsTrim isOkStatus)

/-! ## Simple component variant (`src/src/App.tsx`; the second component of
`src/unnamed/part_000` is logically identical)

`type ChatMessage = {id, me, text?, results?}` with
`ProductResult = {title, price, thumbnail, source?, url?}`.  The `results`
array is taken from the response unchecked beyond `Array.isArray` and
non-emptiness, so it is kept as the raw list of JSON elements.  The `theme`
hook is presentational and omitted. -/

/-- `type ChatMessage = { id, me, text?, results? }`. -/
structure ChatMessage where
  id : Nat
  me : Bool
  text : Option String
  results : Option (List Json)
deriving DecidableEq

/-- The component state of the simple `App`: draft, sending flag, error and
message list. -/
structure AppState where
  draft : String
  isSending : Bool
  error : String
  messages : List ChatMessage
deriving DecidableEq

/-- `typeof data.message === 'string' ? data.message.trim() : ''`
(App.tsx lines 65–66). -/
def responseTextOf (data : Json) : String :=
  match data.getF "message" with
  | some (.str s) => jsTrim s
  | _ => ""

/-- `Array.isArray(data.results) && data.results.length > 0 ? data.results
: undefined` (App.tsx lines 67–70). -/
def responseResultsOf (data : Json) : Option (List Json) :=
  match data.getF "results" with
  | some (.arr es) => if es.length > 0 then some es else none
  | _ => none

/-- The `try` block of the simple `handleSend` after the user message is
appended (App.tsx lines 52–82): non-2xx throws before the body is read; a
parsed body must yield reply text or a non-empty results array, else the
empty-reply error is thrown; on acceptance one assistant message is
appended carrying `text: responseText || undefined` and the results. -/
def sendAttempt (now : Nat) (st1 : AppState) (r : FetchResult) :
    AppState × Option ThrownErr :=
  match r with
  | .fail m => (st1, some (.fetchError m))
  | .resp status body =>
      if isOkStatus status then
        match body with
        | .error m => (st1, some (.jsonError m))
        | .ok .null => (st1, some (.nullAccess "message"))
        | .ok data =>
            let responseText := responseTextOf data
            let responseResults := responseResultsOf data
            if responseText = "" ∧ responseResults = none then
              (st1, some .emptyResponse)
            else
              ({ st1 with messages := st1.messages ++
                  [⟨now + 1, false,
                    if responseText = "" then none else some responseText,
                    responseResults⟩] }, none)
      else (st1, some (.httpStatus status))

/-- The simple `handleSend` (App.tsx lines 39–90).  Its guard is
`if (!trimmed) return` only — unlike the session-aware variant it does not
test the sending flag (the input element is disabled while sending
instead). -/
def handleSend (now : Nat) (st : AppState) (r : FetchResult) : AppState :=
  let trimmed := jsTrim st.draft
  if trimmed = "" then st
  else
    let st1 := { st with error := "", isSending := true, draft := "",
                         messages := st.messages ++ [⟨now, true, some trimmed, none⟩] }
    let res := sendAttempt now st1 r
    let st3 := match res.2 with
      | some e => { res.1 with error := errMessage e }
      | none => res.1
    { st3 with isSending := false }

end HephixSimple

open Hephix (Json)

/-! ## Concrete fixtures for witnesses and counterexamples -/

/-- A session-aware state with a non-empty draft, an idle controller, no
prior session id and one known session. -/
def sampleState : Hephix.AppState where
  draft := "find drills"
  isSending := false
  error := ""
  messages := []
  sessionId := some (.str "")
  store := .depo
  sessions := Json.arr [Json.obj [("session_id", Json.str "depo-1"), ("updated_at", Json.num 5)]]
  sidStore := none
  storeStore := some "depo"

/-- A simple-variant state whose sending flag is raised while the draft is
non-empty: the situation the simple `handleSend` guard does not reject. -/
def busySimple : HephixSimple.AppState where
  draft := "hi"
  isSending := true
  error := ""
  messages := []

/-- `sampleState` with a previously adopted and persisted session id. -/
def oldSidState : Hephix.AppState :=
  { sampleState with sessionId := some (.str "depo-old"), sidStore := some "depo-old" }

/-- The specification's example history: a bare `system` entry, a `human`
entry with string content, and an `ai` entry whose content array holds a
text part and a `tool_use` part. -/
def specExampleEntries : List Hephix.HistoryEntry :=
  [⟨"system", .absent⟩,
   ⟨"human", .content (.str "hi")⟩,
   ⟨"ai", .content (.parts [⟨"text", some "hello"⟩, ⟨"tool_use", none⟩])⟩]

/-- The state after the synchronous prelude of the session-aware
`handleSend` (lines 155–163): error cleared, sending flag raised, user
message appended, draft cleared. -/
def sendPrelude (now : Nat) (st : Hephix.AppState) : Hephix.AppState :=
  { st with error := "", isSending := true, draft := "",
            messages := st.messages ++ [⟨now, .user, Hephix.jsTrim st.draft⟩] }

/-- The synchronous prelude of the simple-variant `handleSend`
(App.tsx lines 42–50). -/
def simpleSendPrelude (now : Nat) (st : HephixSimple.AppState) : HephixSimple.AppState :=
  { st with error := "", isSending := true, draft := "",
            messages := st.messages ++ [⟨now, true, some (Hephix.jsTrim st.draft), none⟩] }

/-! ## Helper lemmas -/

/-- A defined property read implies the receiver is an object. -/
theorem json_getF_obj {j : Json} {k : String} {v : Json}
    (h : j.getF k = some v) : ∃ fs, j = Json.obj fs := by
  cases j <;> first
    | exact ⟨_, rfl⟩
    | simp [Hephix.Json.getF] at h

/-- When its guard passes, the session-aware `handleSend` is the prelude
followed by the attempt, the caught error message, and the lowering of the
sending flag. -/
theorem handleSend_run (now : Nat) (st : Hephix.AppState) (r : Hephix.FetchResult)
    (hg : Hephix.jsTrim st.draft ≠ "") (hs : st.isSending = false) :
    Hephix.handleSend now st r =
      ((Hephix.sendAttempt now (sendPrelude now st) r).2.elim
        { (Hephix.sendAttempt now (sendPrelude now st) r).1 with isSending := false }
        fun e => { (Hephix.sendAttempt now (sendPrelude now st) r).1 with
                   error := Hephix.errMessage e, isSending := false }) := by
  simp only [Hephix.handleSend, hs, sendPrelude]
  rw [if_neg (by simp [hg])]
  cases he : (Hephix.sendAttempt now
      { st with error := "", isSending := true, draft := "",
                messages := st.messages ++ [⟨now, .user, Hephix.jsTrim st.draft⟩] } r).2 <;>
    simp [he]

/-- When its guard passes, the simple-variant `handleSend` decomposes the
same way. -/
theorem simple_handleSend_run (now : Nat) (st : HephixSimple.AppState)
    (r : Hephix.FetchResult) (hg : Hephix.jsTrim st.draft ≠ "") :
    HephixSimple.handleSend now st r =
      ((HephixSimple.sendAttempt now (simpleSendPrelude now st) r).2.elim
        { (HephixSimple.sendAttempt now (simpleSendPrelude now st) r).1 with
          isSending := false }
        fun e => { (HephixSimple.sendAttempt now (simpleSendPrelude now st) r).1 with
                   error := Hephix.errMessage e, isSending := false }) := by
  simp only [HephixSimple.handleSend, simpleSendPrelude]
  rw [if_neg hg]
  cases he : (HephixSimple.sendAttempt now
      { st with error := "", isSending := true, draft := "",
                messages := st.messages ++ [⟨now, true, some (Hephix.jsTrim st.draft), none⟩] }
      r).2 <;>
    simp [he]

/-- `sendAttempt` on a 2xx parsed non-null body: a truthy `session_id` is
adopted and persisted, then the turn is accepted exactly when the reply
text is non-empty. -/
theorem sendAttempt_ok_body (now : Nat) (st1 : Hephix.AppState) (status : Nat)
    (data : Json) (hok : Hephix.isOkStatus status = true) (hnn : data ≠ .null) :
    Hephix.sendAttempt now st1 (.resp status (.ok data)) =
      (let st2 := if Hephix.jsTruthyOpt (data.getF "session_id") = true then
            { st1 with sessionId := data.getF "session_id",
                       sidStore := some (Hephix.jsValToString (data.getF "session_id")) }
          else st1
       if Hephix.responseTextOf data = "" then (st2, some .emptyResponse)
       else ({ st2 with
               messages := st2.messages ++ [⟨now + 1, .ai, Hephix.responseTextOf data⟩] },
             none)) := by
  cases data <;> first
    | exact absurd rfl hnn
    | simp [Hephix.sendAttempt, hok]

/-- The simple-variant `sendAttempt` on a 2xx parsed non-null body: the
turn is accepted exactly when reply text or a non-empty results array is
present. -/
theorem simple_sendAttempt_ok_body (now : Nat) (st1 : HephixSimple.AppState)
    (status : Nat) (data : Json)
    (hok : Hephix.isOkStatus status = true) (hnn : data ≠ .null) :
    HephixSimple.sendAttempt now st1 (.resp status (.ok data)) =
      (if HephixSimple.responseTextOf data = "" ∧ HephixSimple.responseResultsOf data = none
       then (st1, some .emptyResponse)
       else ({ st1 with messages := st1.messages ++
                [⟨now + 1, false,
                  if HephixSimple.responseTextOf data = "" then none
                  else some (HephixSimple.responseTextOf data),
                  HephixSimple.responseResultsOf data⟩] }, none)) := by
  cases data <;> first
    | exact absurd rfl hnn
    | simp [HephixSimple.sendAttempt, hok]

/-- A failed `sendAttempt` leaves the message list of the prelude state
untouched: no assistant message is appended on any failure. -/
theorem sendAttempt_fail_messages (now : Nat) (st1 : Hephix.AppState)
    (r : Hephix.FetchResult) (st2 : Hephix.AppState) (e : Hephix.ThrownErr)
    (h : Hephix.sendAttempt now st1 r = (st2, some e)) :
    st2.messages = st1.messages := by
  cases r with
  | fail m =>
      simp only [Hephix.sendAttempt, Prod.mk.injEq] at h
      rw [← h.1]
  | resp status body =>
      simp only [Hephix.sendAttempt] at h
      split at h
      · cases body with
        | error m =>
            simp only [Prod.mk.injEq] at h
            rw [← h.1]
        | ok data =>
            cases data <;>
              first
                | (simp only [Prod.mk.injEq] at h
                   rw [← h.1])
                | (simp only at h
                   split_ifs at h <;>
                     simp only [Prod.mk.injEq] at h <;>
                     first
                       | exact Option.noConfusion h.2
                       | rw [← h.1])
      · simp only [Prod.mk.injEq] at h
        rw [← h.1]

/-- JavaScript strict equality of a wrapped string against a literal. -/
theorem json_eqStr_str (a b : String) : Json.eqStr (.str a) b = (a == b) := rfl

/-- One step of the history loop on an encoded entry (the entry is an
object, so the `null` guard does not fire). -/
theorem buildLoaded_cons_toJson (e : Hephix.HistoryEntry) (rest : List Json)
    (acc : List Hephix.ChatMessage) :
    Hephix.buildLoaded (e.toJson :: rest) acc
      = (let t := Hephix.typeTag e.toJson
         if t.eqStr "system" then Hephix.buildLoaded rest acc
         else
           match Hephix.extractContent e.toJson with
           | .error er => .error er
           | .ok content =>
               if t.eqStr "human" then
                 Hephix.buildLoaded rest (acc ++ [⟨acc.length, .user, content⟩])
               else if t.eqStr "ai" then
                 Hephix.buildLoaded rest (acc ++ [⟨acc.length, .ai, content⟩])
               else Hephix.buildLoaded rest acc) := rfl

/-- The type tag of an encoded entry: the entry's own tag, or `"unknown"`
when that tag is the empty (falsy) string. -/
theorem typeTag_toJson (e : Hephix.HistoryEntry) :
    Hephix.typeTag e.toJson
      = if e.type = "" then Json.str "unknown" else Json.str e.type := by
  by_cases h : e.type = ""
  · simp only [if_pos h]
    show (if (e.type != "") = true then Json.str e.type else Json.str "unknown") = _
    simp [h]
  · simp only [if_neg h]
    show (if (e.type != "") = true then Json.str e.type else Json.str "unknown") = _
    simp [h]

/-- The filter/map pass on encoded parts never throws and keeps exactly the
`text` fields of the parts tagged `text`. -/
theorem partTexts_toJson (ps : List Hephix.ContentPart) :
    Hephix.partTexts (ps.map Hephix.ContentPart.toJson)
      = .ok ((ps.filter fun p => p.type == "text").map fun p => p.toJson.getF "text") := by
  induction ps with
  | nil => rfl
  | cons p ps ih =>
      have hstep : Hephix.partTexts (p.toJson :: ps.map Hephix.ContentPart.toJson)
          = (Hephix.partTexts (ps.map Hephix.ContentPart.toJson)).map fun ts =>
              if (p.type == "text") = true then p.toJson.getF "text" :: ts else ts := rfl
      by_cases h : (p.type == "text") = true <;>
        simp [hstep, ih, h, List.filter_cons, Except.map]

/-- Joining the extracted `text` fields with newlines agrees with the
specification-side extraction. -/
theorem jsJoinNL_parts (ps : List Hephix.ContentPart) :
    Hephix.jsJoinNL ((ps.filter fun p => p.type == "text").map fun p => p.toJson.getF "text")
      = String.intercalate "\n"
          ((ps.filter fun p => p.type == "text").map Hephix.specPartText) := by
  unfold Hephix.jsJoinNL
  congr 1
  rw [List.map_map]
  refine List.map_congr_left fun p _ => ?_
  cases h : p.text <;>
    simp [Hephix.ContentPart.toJson, Hephix.Json.getF, Hephix.specPartText, h,
      Hephix.jsToString, Function.comp]

/-- Content extraction on an encoded well-formed entry agrees with the
specification-side extraction. -/
theorem extractContent_toJson (e : Hephix.HistoryEntry) (hwf : e.data.wf = true) :
    Hephix.extractContent e.toJson = .ok (Hephix.specExtract e.data) := by
  obtain ⟨ty, dt⟩ := e
  cases dt with
  | absent => rfl
  | emptyObj => rfl
  | content c =>
      cases c with
      | str s => rfl
      | parts ps =>
          show (Hephix.partTexts (ps.map Hephix.ContentPart.toJson)).map Hephix.jsJoinNL = _
          rw [partTexts_toJson]
          simp only [Except.map]
          rw [jsJoinNL_parts]
          rfl
      | other j =>
          cases j <;> first
            | rfl
            | exact absurd hwf (by simp [Hephix.EntryData.wf])

/-- The history loop on a list of encoded well-formed entries never throws
and produces exactly the specification-side rebuild, with identifiers
continuing from the accumulator's length. -/
theorem buildLoaded_toJson (es : List Hephix.HistoryEntry) (acc : List Hephix.ChatMessage)
    (hwf : ∀ e ∈ es, e.data.wf = true) :
    Hephix.buildLoaded (es.map Hephix.HistoryEntry.toJson) acc
      = .ok (acc ++ Hephix.specNumber acc.length (es.filterMap Hephix.specEntry)) := by
  induction es generalizing acc with
  | nil => simp [Hephix.buildLoaded, Hephix.specNumber]
  | cons e es ih =>
      have hwfe : e.data.wf = true := hwf e (List.mem_cons_self e es)
      have hwfes : ∀ x ∈ es, x.data.wf = true := fun x hx => hwf x (List.mem_cons_of_mem e hx)
      have IH : ∀ acc2 : List Hephix.ChatMessage,
          Hephix.buildLoaded (es.map Hephix.HistoryEntry.toJson) acc2
            = .ok (acc2 ++ Hephix.specNumber acc2.length (es.filterMap Hephix.specEntry)) :=
        fun acc2 => ih acc2 hwfes
      rw [List.map_cons, buildLoaded_cons_toJson, typeTag_toJson,
        extractContent_toJson e hwfe]
      by_cases h0 : e.type = ""
      · simp [h0, json_eqStr_str, IH, Hephix.specEntry,
          show ("unknown" == "system") = false from rfl,
          show ("unknown" == "human") = false from rfl,
          show ("unknown" == "ai") = false from rfl,
          show ("" == "system") = false from rfl,
          show ("" == "human") = false from rfl,
          show ("" == "ai") = false from rfl]
      · by_cases h1 : e.type = "system"
        · simp [h0, h1, json_eqStr_str, IH, Hephix.specEntry,
            show ("system" == "system") = true from rfl]
        · by_cases h2 : e.type = "human"
          · simp [h0, h1, h2, json_eqStr_str, IH, Hephix.specEntry, Hephix.specNumber,
              List.append_assoc,
              show ("human" == "system") = false from rfl,
              show ("human" == "human") = true from rfl]
          · by_cases h3 : e.type = "ai"
            · simp [h0, h1, h2, h3, json_eqStr_str, IH, Hephix.specEntry, Hephix.specNumber,
                List.append_assoc,
                show ("ai" == "system") = false from rfl,
                show ("ai" == "human") = false from rfl,
                show ("ai" == "ai") = true from rfl]
            · simp [json_eqStr_str, beq_iff_eq, h0, h1, h2, h3, IH, Hephix.specEntry]

/-! ## Claim theorems -/

/-- C8: `handleNewChat` clears the session id, the message list and the
error, removes the persisted session id, and leaves the store tag and its
persisted value unchanged. -/
theorem c8_new_chat_frame (st : Hephix.AppState) :
    (Hephix.handleNewChat st).sessionId = some (.str "")
    ∧ (Hephix.handleNewChat st).messages = []
    ∧ (Hephix.handleNewChat st).error = ""
    ∧ (Hephix.handleNewChat st).sidStore = none
    ∧ (Hephix.handleNewChat st).store = st.store
    ∧ (Hephix.handleNewChat st).storeStore = st.storeStore :=
  ⟨rfl, rfl, rfl, rfl, rfl, rfl⟩

/-- C2 (amended): every call to the session-aware `handleSend` returns with
no state change when the sending flag is raised or the draft trims to the
empty string; the simple-variant `handleSend` returns unchanged only when
the draft trims to the empty string — it does not test the sending flag, so
single-flight there rests on the input element being disabled. -/
theorem c2_guard_variants (now nowS : Nat) (st : Hephix.AppState)
    (stS : HephixSimple.AppState) (r rS : Hephix.FetchResult)
    (hg : Hephix.jsTrim st.draft = "" ∨ st.isSending = true)
    (hgS : Hephix.jsTrim stS.draft = "") :
    Hephix.handleSend now st r = st ∧ HephixSimple.handleSend nowS stS rS = stS := by
  constructor
  · rcases hg with h | h <;> simp [Hephix.handleSend, h]
  · simp [HephixSimple.handleSend, hgS]

/-- Witness for C2: a whitespace-only draft and an empty draft are both
rejected without touching the state. -/
theorem c2_guard_variants_witness :
    Hephix.handleSend 3 { sampleState with draft := " " } (.fail "down")
      = { sampleState with draft := " " }
    ∧ HephixSimple.handleSend 3 ⟨"", false, "", []⟩ (.fail "down") = ⟨"", false, "", []⟩ :=
  c2_guard_variants 3 3 _ _ _ _ (Or.inl (by decide)) (by decide)

/-- C2 counterexample: calling the simple-variant `handleSend` while the
sending flag is already `true` and the draft trims non-empty is not a
no-op — a user message is appended and the request proceeds. -/
theorem c2_guard_counterexample :
    busySimple.isSending = true
    ∧ Hephix.jsTrim busySimple.draft ≠ ""
    ∧ (HephixSimple.handleSend 5 busySimple
        (.resp 200 (.ok (.obj [("message", Json.str "yo")])))).messages
        ≠ busySimple.messages := by decide

/-- C7: on a `loadSession` response whose `session_id` is the string `s`,
the store tag becomes the store inferred from the prefix of `s`
(`detectStore`) and that tag's name is persisted; and the chat endpoint of
each store is `{base}/chat` for the default store and
`{base}/chat/<store-suffix>` otherwise. -/
theorem c7_store_routing (st : Hephix.AppState) (status : Nat) (data : Json)
    (s base : String)
    (hsid : data.getF "session_id" = some (.str s)) :
    (Hephix.loadSession st (.resp status (.ok data))).store = Hephix.detectStore s
    ∧ (Hephix.loadSession st (.resp status (.ok data))).storeStore
        = some (Hephix.storeName (Hephix.detectStore s))
    ∧ Hephix.getChatEndpoint base .depo = base ++ "/chat"
    ∧ Hephix.getChatEndpoint base .darel = base ++ "/chat/darel"
    ∧ Hephix.getChatEndpoint base .ebay = base ++ "/chat/ebay" := by
  obtain ⟨fs, rfl⟩ := json_getF_obj hsid
  refine ⟨?_, ?_, rfl, rfl, rfl⟩ <;>
    · simp only [Hephix.loadSession, hsid]
      split
      · simp
      · split <;> simp

/-- Witness for C7: loading a session whose id carries the `darel-` tag
switches the store to `darel` and persists `"darel"`. -/
theorem c7_store_routing_witness :
    (Hephix.loadSession sampleState (.resp 200 (.ok (.obj
        [("session_id", Json.str "darel-77"), ("messages", Json.arr [])])))).store
      = Hephix.detectStore "darel-77"
    ∧ (Hephix.loadSession sampleState (.resp 200 (.ok (.obj
        [("session_id", Json.str "darel-77"), ("messages", Json.arr [])])))).storeStore
      = some (Hephix.storeName (Hephix.detectStore "darel-77"))
    ∧ Hephix.getChatEndpoint "api" .depo = "api" ++ "/chat"
    ∧ Hephix.getChatEndpoint "api" .darel = "api" ++ "/chat/darel"
    ∧ Hephix.getChatEndpoint "api" .ebay = "api" ++ "/chat/ebay" :=
  c7_store_routing sampleState 200 _ "darel-77" "api" (by decide)

/-- C9 (amended): `loadSessions` and `loadSession` never inspect the HTTP
status — for any two statuses and the same body the results agree — and a
response of any status whose parsed body is non-null and lacks a `sessions`
field makes `loadSessions` replace the session list with the empty list.
(A body of JSON `null` also lacks the field but instead throws on the
property access, leaving the list unchanged.) -/
theorem c9_status_ignored (st : Hephix.AppState) (s1 s2 : Nat)
    (b : Except String Json) (data : Json)
    (hnn : data ≠ .null) (hno : data.getF "sessions" = none) :
    Hephix.loadSessions st (.resp s1 b) = Hephix.loadSessions st (.resp s2 b)
    ∧ Hephix.loadSession st (.resp s1 b) = Hephix.loadSession st (.resp s2 b)
    ∧ (Hephix.loadSessions st (.resp s1 (.ok data))).sessions = Json.arr [] := by
  refine ⟨?_, ?_, ?_⟩
  · cases b with
    | error m => rfl
    | ok j => cases j <;> rfl
  · cases b with
    | error m => rfl
    | ok j => cases j <;> rfl
  · cases data with
    | null => exact absurd rfl hnn
    | obj fs =>
        simp only [Hephix.loadSessions]
        rw [hno]
    | bool b => simp [Hephix.loadSessions, Hephix.Json.getF]
    | num n => simp [Hephix.loadSessions, Hephix.Json.getF]
    | str s => simp [Hephix.loadSessions, Hephix.Json.getF]
    | arr xs => simp [Hephix.loadSessions, Hephix.Json.getF]

/-- Witness for C9: a 200 and a 404 response with the same unparsable body
give the same state, and a parsed `{"ok": true}` body empties the list. -/
theorem c9_status_ignored_witness :
    Hephix.loadSessions sampleState (.resp 200 (.error "bad"))
      = Hephix.loadSessions sampleState (.resp 404 (.error "bad"))
    ∧ Hephix.loadSession sampleState (.resp 200 (.error "bad"))
      = Hephix.loadSession sampleState (.resp 404 (.error "bad"))
    ∧ (Hephix.loadSessions sampleState (.resp 200 (.ok (.obj [("ok", Json.bool true)])))).sessions
      = Json.arr [] :=
  c9_status_ignored sampleState 200 404 (.error "bad") (.obj [("ok", Json.bool true)])
    (by decide) (by decide)

/-- C9 counterexample: a response whose JSON body is `null` lacks a
`sessions` field, yet `loadSessions` does not replace the session list with
the empty list — the property access throws and the prior non-empty list is
kept. -/
theorem c9_status_ignored_counterexample :
    Json.null.getF "sessions" = none
    ∧ (Hephix.loadSessions sampleState (.resp 200 (.ok .null))).sessions
        = sampleState.sessions
    ∧ sampleState.sessions ≠ Json.arr [] := by decide

/-- C5 (amended): every failure of `loadSessions`, and every `loadSession`
failure at the fetch, at the JSON parse, or on a `null` body, leaves the
whole state unchanged, and no failure of either surfaces an error; but a
`loadSession` response whose parsed body lacks a string `session_id` fails
silently only after the session id has been overwritten with the raw field
value and persisted as its string coercion — the message list, error, store
tag, session list and persisted store are left unchanged, the session id
and its persisted copy are not. -/
theorem c5_silent_failure_frame (st : Hephix.AppState) (status : Nat)
    (m : String) (data : Json)
    (hnn : data ≠ .null)
    (hns : ∀ t : String, data.getF "session_id" ≠ some (.str t)) :
    Hephix.loadSessions st (.fail m) = st
    ∧ Hephix.loadSessions st (.resp status (.error m)) = st
    ∧ Hephix.loadSessions st (.resp status (.ok .null)) = st
    ∧ Hephix.loadSession st (.fail m) = st
    ∧ Hephix.loadSession st (.resp status (.error m)) = st
    ∧ Hephix.loadSession st (.resp status (.ok .null)) = st
    ∧ (Hephix.loadSession st (.resp status (.ok data))).sessionId
        = data.getF "session_id"
    ∧ (Hephix.loadSession st (.resp status (.ok data))).sidStore
        = some (Hephix.jsValToString (data.getF "session_id"))
    ∧ (Hephix.loadSession st (.resp status (.ok data))).messages = st.messages
    ∧ (Hephix.loadSession st (.resp status (.ok data))).error = st.error
    ∧ (Hephix.loadSession st (.resp status (.ok data))).store = st.store
    ∧ (Hephix.loadSession st (.resp status (.ok data))).sessions = st.sessions
    ∧ (Hephix.loadSession st (.resp status (.ok data))).storeStore = st.storeStore := by
  refine ⟨rfl, rfl, rfl, rfl, rfl, rfl, ?_⟩
  cases data <;> first
    | exact absurd rfl hnn
    | · rename_i fs
        cases hv : (Json.obj fs).getF "session_id" with
        | none => simp [Hephix.loadSession, hv]
        | some j =>
            cases j <;> first
              | exact absurd hv (hns _)
              | simp [Hephix.loadSession, hv]
    | simp [Hephix.loadSession, Hephix.Json.getF, Hephix.jsValToString]

/-- Witness for C5: an unparsable session-list response is a no-op, and a
history response parsing to `{}` silently leaves everything but the
(re)persisted session id untouched. -/
theorem c5_silent_failure_frame_witness :
    Hephix.loadSessions sampleState (.fail "down") = sampleState
    ∧ Hephix.loadSessions sampleState (.resp 500 (.error "down")) = sampleState
    ∧ Hephix.loadSessions sampleState (.resp 500 (.ok .null)) = sampleState
    ∧ Hephix.loadSession sampleState (.fail "down") = sampleState
    ∧ Hephix.loadSession sampleState (.resp 500 (.error "down")) = sampleState
    ∧ Hephix.loadSession sampleState (.resp 500 (.ok .null)) = sampleState
    ∧ (Hephix.loadSession sampleState (.resp 500 (.ok (.obj [])))).sessionId
        = (Json.obj []).getF "session_id"
    ∧ (Hephix.loadSession sampleState (.resp 500 (.ok (.obj [])))).sidStore
        = some (Hephix.jsValToString ((Json.obj []).getF "session_id"))
    ∧ (Hephix.loadSession sampleState (.resp 500 (.ok (.obj [])))).messages
        = sampleState.messages
    ∧ (Hephix.loadSession sampleState (.resp 500 (.ok (.obj [])))).error
        = sampleState.error
    ∧ (Hephix.loadSession sampleState (.resp 500 (.ok (.obj [])))).store
        = sampleState.store
    ∧ (Hephix.loadSession sampleState (.resp 500 (.ok (.obj [])))).sessions
        = sampleState.sessions
    ∧ (Hephix.loadSession sampleState (.resp 500 (.ok (.obj [])))).storeStore
        = sampleState.storeStore :=
  c5_silent_failure_frame sampleState 500 "down" (.obj []) (by decide)
    (by intro t; simp [Hephix.Json.getF])

/-- C5 counterexample: a history response whose body parses to `{}` (no
`session_id` field) fails silently, but not before `setSessionId(undefined)`
and the `localStorage` write have replaced the previous session id with
`undefined` and the persisted value with the string coercion "undefined":
the state is not left exactly as it was. -/
theorem c5_silent_failure_counterexample :
    (Hephix.loadSession oldSidState (.resp 200 (.ok (.obj [])))).sessionId = none
    ∧ (Hephix.loadSession oldSidState (.resp 200 (.ok (.obj [])))).sidStore
        = some "undefined"
    ∧ oldSidState.sessionId ≠ none := by decide

/-- C6: on every submission failure of the session-aware `handleSend` —
whatever exception the attempt throws (non-2xx status, fetch rejection,
parse failure, null body or empty reply) — the visible error is set to the
thrown condition's message, no assistant message is appended, the
triggering user message remains appended to the transcript, and the
sending flag ends lowered. -/
theorem c6_failure_handling (now : Nat) (st : Hephix.AppState) (r : Hephix.FetchResult)
    (st2 : Hephix.AppState) (e : Hephix.ThrownErr)
    (hg : Hephix.jsTrim st.draft ≠ "") (hs : st.isSending = false)
    (hfail : Hephix.sendAttempt now (sendPrelude now st) r = (st2, some e)) :
    Hephix.handleSend now st r
      = { st2 with error := Hephix.errMessage e, isSending := false }
    ∧ (Hephix.handleSend now st r).error = Hephix.errMessage e
    ∧ (Hephix.handleSend now st r).isSending = false
    ∧ (Hephix.handleSend now st r).messages
        = st.messages ++ [⟨now, .user, Hephix.jsTrim st.draft⟩] := by
  have hrun := handleSend_run now st r hg hs
  rw [hfail] at hrun
  have hmsg := sendAttempt_fail_messages now (sendPrelude now st) r st2 e hfail
  refine ⟨hrun, ?_, ?_, ?_⟩ <;> rw [hrun]
  · rfl
  · rfl
  · simpa [sendPrelude] using hmsg

/-- Witness for C6: a 500 response sets the error to the status template,
keeps the user message, appends nothing else and lowers the flag. -/
theorem c6_failure_handling_witness :
    Hephix.handleSend 7 sampleState (.resp 500 (.error "boom"))
      = { sendPrelude 7 sampleState with
          error := Hephix.errMessage (.httpStatus 500), isSending := false }
    ∧ (Hephix.handleSend 7 sampleState (.resp 500 (.error "boom"))).error
        = Hephix.errMessage (.httpStatus 500)
    ∧ (Hephix.handleSend 7 sampleState (.resp 500 (.error "boom"))).isSending = false
    ∧ (Hephix.handleSend 7 sampleState (.resp 500 (.error "boom"))).messages
        = sampleState.messages ++ [⟨7, .user, Hephix.jsTrim sampleState.draft⟩] :=
  c6_failure_handling 7 sampleState (.resp 500 (.error "boom"))
    (sendPrelude 7 sampleState) (.httpStatus 500) (by decide) rfl (by decide)

/-- C3: when a 2xx chat response carries a non-empty string `session_id`
and the controller had no (truthy) prior session id, `handleSend` adopts
that id, persists it, and any subsequent submission's request body carries
it as its `session_id` field. -/
theorem c3_session_adoption (now status : Nat) (st : Hephix.AppState) (data : Json)
    (s d : String)
    (hg : Hephix.jsTrim st.draft ≠ "") (hsend : st.isSending = false)
    (_hprior : Hephix.jsTruthyOpt st.sessionId = false)
    (hok : Hephix.isOkStatus status = true)
    (hsid : data.getF "session_id" = some (.str s)) (hne : s ≠ "") :
    (Hephix.handleSend now st (.resp status (.ok data))).sessionId = some (.str s)
    ∧ (Hephix.handleSend now st (.resp status (.ok data))).sidStore = some s
    ∧ Hephix.requestBody
        { Hephix.handleSend now st (.resp status (.ok data)) with draft := d }
        = (Hephix.jsTrim d, some (.str s)) := by
  have hnn : data ≠ .null := by
    rintro rfl
    simp [Hephix.Json.getF] at hsid
  have htr : Hephix.jsTruthyOpt (some (Json.str s)) = true := by
    simp [Hephix.jsTruthyOpt, Hephix.jsTruthy, hne]
  have hrun := handleSend_run now st (.resp status (.ok data)) hg hsend
  rw [sendAttempt_ok_body now (sendPrelude now st) status data hok hnn] at hrun
  simp only [hsid, htr, eq_self_iff_true, if_true] at hrun
  by_cases ht : Hephix.responseTextOf data = "" <;>
    simp only [ht, ite_true, ite_false, Option.elim] at hrun <;>
    rw [hrun] <;>
    exact ⟨rfl, by simp [Hephix.jsValToString, Hephix.jsToString], by
      simp [Hephix.requestBody, Hephix.jsTruthyOpt, Hephix.jsTruthy, hne]⟩

/-- Witness for C3: the spec's example — a response
`{response: "42 results", session_id: "depo-abc"}` arriving with no prior
session id is adopted, persisted, and carried in the next request body. -/
theorem c3_session_adoption_witness :
    (Hephix.handleSend 11 sampleState (.resp 200 (.ok (.obj
        [("response", Json.str "42 results"),
         ("session_id", Json.str "depo-abc")])))).sessionId
      = some (.str "depo-abc")
    ∧ (Hephix.handleSend 11 sampleState (.resp 200 (.ok (.obj
        [("response", Json.str "42 results"),
         ("session_id", Json.str "depo-abc")])))).sidStore
      = some "depo-abc"
    ∧ Hephix.requestBody
        { Hephix.handleSend 11 sampleState (.resp 200 (.ok (.obj
            [("response", Json.str "42 results"),
             ("session_id", Json.str "depo-abc")]))) with draft := "more drills" }
      = (Hephix.jsTrim "more drills", some (.str "depo-abc")) :=
  c3_session_adoption 11 200 sampleState
    (.obj [("response", Json.str "42 results"), ("session_id", Json.str "depo-abc")])
    "depo-abc" "more drills" (by decide) rfl (by decide) (by decide) (by decide)
    (by decide)

/-- C1 (amended): on a 2xx chat response with a parsed non-null body, the
simple-variant `handleSend` accepts the turn exactly when at least one of
reply text (the `message` field) or a non-empty results array is present,
appending exactly one assistant message carrying whichever of the two were
present; the session-aware `handleSend` instead accepts exactly when the
reply text (the `response` field) trims non-empty — a results field plays
no part there — and on acceptance appends one assistant text message; in
either variant the absent case sets the empty-reply error and appends no
assistant message. -/
theorem c1_accept_variants (now nowS status statusS : Nat)
    (st : Hephix.AppState) (stS : HephixSimple.AppState) (data dataS : Json)
    (hg : Hephix.jsTrim st.draft ≠ "") (hsend : st.isSending = false)
    (hgS : Hephix.jsTrim stS.draft ≠ "")
    (hok : Hephix.isOkStatus status = true) (hokS : Hephix.isOkStatus statusS = true)
    (hnn : data ≠ .null) (hnnS : dataS ≠ .null) :
    ((HephixSimple.responseTextOf dataS ≠ "" ∨ HephixSimple.responseResultsOf dataS ≠ none) →
      (HephixSimple.handleSend nowS stS (.resp statusS (.ok dataS))).messages
        = stS.messages ++ [⟨nowS, true, some (Hephix.jsTrim stS.draft), none⟩,
            ⟨nowS + 1, false,
             if HephixSimple.responseTextOf dataS = "" then none
             else some (HephixSimple.responseTextOf dataS),
             HephixSimple.responseResultsOf dataS⟩]
      ∧ (HephixSimple.handleSend nowS stS (.resp statusS (.ok dataS))).error = "")
    ∧ (HephixSimple.responseTextOf dataS = "" ∧ HephixSimple.responseResultsOf dataS = none →
      (HephixSimple.handleSend nowS stS (.resp statusS (.ok dataS))).messages
        = stS.messages ++ [⟨nowS, true, some (Hephix.jsTrim stS.draft), none⟩]
      ∧ (HephixSimple.handleSend nowS stS (.resp statusS (.ok dataS))).error
        = "Empty response from server")
    ∧ (Hephix.responseTextOf data ≠ "" →
      (Hephix.handleSend now st (.resp status (.ok data))).messages
        = st.messages ++ [⟨now, .user, Hephix.jsTrim st.draft⟩,
            ⟨now + 1, .ai, Hephix.responseTextOf data⟩]
      ∧ (Hephix.handleSend now st (.resp status (.ok data))).error = "")
    ∧ (Hephix.responseTextOf data = "" →
      (Hephix.handleSend now st (.resp status (.ok data))).messages
        = st.messages ++ [⟨now, .user, Hephix.jsTrim st.draft⟩]
      ∧ (Hephix.handleSend now st (.resp status (.ok data))).error
        = "Empty response from server") := by
  have hrunS := simple_handleSend_run nowS stS (.resp statusS (.ok dataS)) hgS
  rw [simple_sendAttempt_ok_body nowS (simpleSendPrelude nowS stS) statusS dataS hokS hnnS]
    at hrunS
  have hrun := handleSend_run now st (.resp status (.ok data)) hg hsend
  rw [sendAttempt_ok_body now (sendPrelude now st) status data hok hnn] at hrun
  refine ⟨?_, ?_, ?_, ?_⟩
  · intro hpresent
    have hc : ¬ (HephixSimple.responseTextOf dataS = ""
        ∧ HephixSimple.responseResultsOf dataS = none) := by
      rcases hpresent with h | h <;> intro hc <;> [exact h hc.1; exact h hc.2]
    simp only [hc, ite_false, if_neg hc, Option.elim] at hrunS
    rw [hrunS]
    exact ⟨by simp [simpleSendPrelude], rfl⟩
  · intro habsent
    simp only [if_pos habsent, Option.elim] at hrunS
    rw [hrunS]
    exact ⟨by simp [simpleSendPrelude], rfl⟩
  · intro hpresent
    simp only [if_neg hpresent, Option.elim] at hrun
    rw [hrun]
    constructor
    · by_cases htr : Hephix.jsTruthyOpt (data.getF "session_id") = true <;>
        simp [htr, sendPrelude]
    · by_cases htr : Hephix.jsTruthyOpt (data.getF "session_id") = true <;>
        simp [htr, sendPrelude]
  · intro habsent
    simp only [if_pos habsent, Option.elim] at hrun
    rw [hrun]
    constructor
    · by_cases htr : Hephix.jsTruthyOpt (data.getF "session_id") = true <;>
        simp [htr, sendPrelude]
    · by_cases htr : Hephix.jsTruthyOpt (data.getF "session_id") = true <;>
        simp [htr, Hephix.errMessage]

/-- Witness for C1: a results-only body is accepted by the simple variant
with one assistant message carrying only the results; an empty body is
rejected by both variants; a text body is accepted by the session-aware
variant. -/
theorem c1_accept_variants_witness :
    (HephixSimple.handleSend 2 ⟨"buy screws", false, "", []⟩ (.resp 200 (.ok (.obj
        [("results", Json.arr [Json.obj [("title", Json.str "Screw")]])])))).messages
      = [⟨2, true, some (Hephix.jsTrim "buy screws"), none⟩,
         ⟨3, false,
          if HephixSimple.responseTextOf (.obj
              [("results", Json.arr [Json.obj [("title", Json.str "Screw")]])]) = ""
          then none
          else some (HephixSimple.responseTextOf (.obj
              [("results", Json.arr [Json.obj [("title", Json.str "Screw")]])])),
          HephixSimple.responseResultsOf (.obj
              [("results", Json.arr [Json.obj [("title", Json.str "Screw")]])])⟩]
    ∧ (HephixSimple.handleSend 2 ⟨"buy screws", false, "", []⟩ (.resp 200 (.ok (.obj
        [("results", Json.arr [Json.obj [("title", Json.str "Screw")]])])))).error = ""
    ∧ (Hephix.handleSend 2 sampleState (.resp 200 (.ok (.obj
        [("response", Json.str "two results")])))).messages
      = sampleState.messages ++ [⟨2, .user, Hephix.jsTrim sampleState.draft⟩,
          ⟨3, .ai, Hephix.responseTextOf (.obj [("response", Json.str "two results")])⟩]
    ∧ (Hephix.handleSend 2 sampleState (.resp 200 (.ok (.obj
        [("response", Json.str "two results")])))).error = "" := by
  have h := c1_accept_variants 2 2 200 200 sampleState ⟨"buy screws", false, "", []⟩
    (.obj [("response", Json.str "two results")])
    (.obj [("results", Json.arr [Json.obj [("title", Json.str "Screw")]])])
    (by decide) rfl (by decide) (by decide) (by decide) (by decide) (by decide)
  obtain ⟨h1, _, h3, _⟩ := h
  obtain ⟨h1a, h1b⟩ := h1 (Or.inr (by decide))
  obtain ⟨h3a, h3b⟩ := h3 (by decide)
  exact ⟨by simpa using h1a, h1b, h3a, h3b⟩

/-- C1 counterexample: the session-aware `handleSend`, given a 2xx response
whose body carries a non-empty structured results array but no reply text,
treats the turn as a failure — the empty-reply error is set and no
assistant message is appended — although the claim requires acceptance with
one assistant message carrying the results. -/
theorem c1_accept_counterexample :
    (HephixSimple.responseResultsOf (.obj
        [("results", Json.arr [Json.obj [("title", Json.str "Drill")]])]) ≠ none)
    ∧ (Hephix.handleSend 1 sampleState (.resp 200 (.ok (.obj
        [("results", Json.arr [Json.obj [("title", Json.str "Drill")]])])))).error
      = "Empty response from server"
    ∧ (Hephix.handleSend 1 sampleState (.resp 200 (.ok (.obj
        [("results", Json.arr [Json.obj [("title", Json.str "Drill")]])])))).messages
      = [⟨1, .user, "find drills"⟩] := by decide

/-- C4: for a history response carrying a string session id and a list of
contract-shaped entries, `loadSession` rebuilds the message list exactly as
the specification describes: `system` entries are dropped, `human` entries
become user messages, `ai` entries become assistant messages, and each
entry's text is a string payload kept as is, an array payload reduced to
its `text`-tagged parts joined with newlines, or any other payload coerced
to its textual form (`specRebuild` transcribes that wording). -/
theorem c4_history_rebuild (st : Hephix.AppState) (status : Nat) (data : Json)
    (sid : String) (es : List Hephix.HistoryEntry)
    (hsid : data.getF "session_id" = some (.str sid))
    (hmsgs : data.getF "messages" = some (.arr (es.map Hephix.HistoryEntry.toJson)))
    (hwf : ∀ e ∈ es, e.data.wf = true) :
    (Hephix.loadSession st (.resp status (.ok data))).messages = Hephix.specRebuild es := by
  obtain ⟨fs, rfl⟩ := json_getF_obj hsid
  have hbl := buildLoaded_toJson es [] hwf
  simp only [Hephix.loadSession, hsid, hmsgs]
  simp only [show Hephix.jsTruthy (Json.arr (es.map Hephix.HistoryEntry.toJson)) = true from rfl,
    eq_self_iff_true, if_true,
    show Hephix.jsIterate (Json.arr (es.map Hephix.HistoryEntry.toJson))
      = Except.ok (es.map Hephix.HistoryEntry.toJson) from rfl]
  rw [hbl]
  simp [Hephix.specRebuild]

/-- Witness for C4: the specification's example history — a bare `system`
entry, a `human` entry with string content `"hi"`, and an `ai` entry whose
content array holds a text part `"hello"` and a `tool_use` part — rebuilds
to exactly a user message `"hi"` and an assistant message `"hello"`. -/
theorem c4_history_rebuild_witness :
    (Hephix.loadSession sampleState (.resp 200 (.ok (.obj
        [("session_id", Json.str "depo-abc"),
         ("messages",
          Json.arr (specExampleEntries.map Hephix.HistoryEntry.toJson))])))).messages
      = [⟨0, .user, "hi"⟩, ⟨1, .ai, "hello"⟩] :=
  (c4_history_rebuild sampleState 200 _ "depo-abc" specExampleEntries
    (by decide) (by decide) (by decide)).trans (by decide)

/-- C10: a history entry tagged `human` or `ai` whose `data` field is
absent, or whose `data` has no `content` field, is never dropped by the
rebuild loop: it contributes a message with empty text at the current
position, within any surrounding entry list and accumulator. -/
theorem c10_missing_data_entries (e : Hephix.HistoryEntry) (rest : List Json)
    (acc : List Hephix.ChatMessage)
    (htype : e.type = "human" ∨ e.type = "ai")
    (hdata : e.data = .absent ∨ e.data = .emptyObj) :
    Hephix.buildLoaded (e.toJson :: rest) acc
      = Hephix.buildLoaded rest
          (acc ++ [⟨acc.length, if e.type = "human" then .user else .ai, ""⟩]) := by
  obtain ⟨ty, dt⟩ := e
  rcases htype with h | h <;> cases h <;> rcases hdata with h | h <;> cases h <;> rfl

/-- Witness for C10: an `ai` entry `{type: "ai", data: {}}` alone appends
one assistant message with empty text. -/
theorem c10_missing_data_entries_witness :
    Hephix.buildLoaded ((⟨"ai", .emptyObj⟩ : Hephix.HistoryEntry).toJson :: [])
      ([] : List Hephix.ChatMessage)
      = Hephix.buildLoaded []
          (([] : List Hephix.ChatMessage)
            ++ [⟨([] : List Hephix.ChatMessage).length,
                 if ("ai" : String) = "human" then .user else .ai, ""⟩]) :=
  c10_missing_data_entries ⟨"ai", .emptyObj⟩ [] [] (Or.inr rfl) (Or.inr rfl)
